import Mathlib

/-!
Verification development for the ToolSocket protocol engine.

The JavaScript sources are shallowly embedded:
* JS 32-bit integer coercions (`ToInt32`, `>>`, `<<`, `& 255`) are modelled on
  `Int`/`Nat` with explicit wrapping (`toInt32`, `wrap32`).
* Byte strings (`Uint8Array`) are `List Nat`.
* JS values stored in a message body are modelled by `JsVal`; arrays and
  objects keep only the data the engine ever inspects (an array's length,
  an object's object-ness), since bodies are otherwise opaque to the engine.
* The host-provided JSON text codec (`JSON.stringify` / `JSON.parse` composed
  with `TextEncoder`/`TextDecoder`) is out of scope for the repository and is
  abstracted as an encoding parameter `enc`/`dec` where the framing code uses
  it.
* Exceptions are `Except`; mutation is explicit state passing.
-/

namespace ToolSocket

/-! ## utilities.js : 32-bit big-endian byte codec -/

/-- JS `ToInt32` applied to a nonnegative number: reduce mod 2^32 and
reinterpret as a signed 32-bit value. -/
def toInt32 (num : Nat) : Int :=
  if num % 2 ^ 32 < 2 ^ 31 then (num % 2 ^ 32 : Nat)
  else (num % 2 ^ 32 : Nat) - 2 ^ 32

/-- Wrap an integer into the signed 32-bit range (the implicit `ToInt32`
conversion JS applies to bitwise operator results). -/
def wrap32 (a : Int) : Int :=
  if a % 2 ^ 32 < 2 ^ 31 then a % 2 ^ 32 else a % 2 ^ 32 - 2 ^ 32

/-- JS sign-propagating right shift `a >> k` on an int32 value: floor division
by 2^k (Lean's `Int` division is E-division, which is floor division for a
positive divisor). -/
def jsShr (a : Int) (k : Nat) : Int := a / (2 ^ k : Nat)

/-- JS left shift `a << k` applied to a nonnegative number: coerce to int32,
multiply, wrap back into int32. -/
def jsShl (a : Nat) (k : Nat) : Int := wrap32 (toInt32 a * (2 ^ k : Nat))

/-- JS `a & 255` on an int32 value: the low byte, always nonnegative. -/
def jsAnd255 (a : Int) : Nat := (a % 256).toNat

/-- `utilities.intToByte`: unsigned number to four bytes, most significant
first, via `(num >> 24) & 255`, `(num >> 16) & 255`, `(num >> 8) & 255`,
`num & 255`. -/
def intToByte (num : Nat) : List Nat :=
  [ jsAnd255 (jsShr (toInt32 num) 24)
  , jsAnd255 (jsShr (toInt32 num) 16)
  , jsAnd255 (jsShr (toInt32 num) 8)
  , jsAnd255 (toInt32 num) ]

/-- `utilities.byteToInt`: `byteArray[0] * 2^24 + (byteArray[1] << 16) +
(byteArray[2] << 8) + byteArray[3]`.  The first product is ordinary number
arithmetic (`Math.pow`), the two shifts are JS `<<`. -/
def byteToInt (byteArray : List Nat) : Int :=
  (byteArray.getD 0 0 : Int) * 2 ^ 24
    + jsShl (byteArray.getD 1 0) 16
    + jsShl (byteArray.getD 2 0) 8
    + (byteArray.getD 3 0 : Int)

theorem intToByte_length (num : Nat) : (intToByte num).length = 4 := rfl

/-- The four emitted bytes are the base-256 digits of `num`. -/
theorem intToByte_eq_digits (num : Nat) (h : num < 2 ^ 32) :
    intToByte num =
      [num / 2 ^ 24, num / 2 ^ 16 % 256, num / 2 ^ 8 % 256, num % 256] := by
  have hm : num % 2 ^ 32 = num := Nat.mod_eq_of_lt h
  simp only [intToByte, jsAnd255, jsShr, toInt32, hm]
  split_ifs with h31
  · simp only [List.cons.injEq, and_true]
    refine ⟨?_, ?_, ?_, ?_⟩ <;> omega
  · simp only [List.cons.injEq, and_true]
    refine ⟨?_, ?_, ?_, ?_⟩ <;> omega

theorem byteToInt_four (a b c d : Nat) :
    byteToInt [a, b, c, d] = (a : Int) * 2 ^ 24 + jsShl b 16 + jsShl c 8 + (d : Int) := rfl

/-- Shared helper: decoding the 4-byte big-endian encoding is the identity on
`[0, 2^32)`. -/
theorem byteToInt_intToByte (num : Nat) (h : num < 2 ^ 32) :
    byteToInt (intToByte num) = (num : Int) := by
  rw [intToByte_eq_digits num h, byteToInt_four]
  simp only [jsShl, wrap32, toInt32]
  split_ifs <;> omega

/-! ## JS values

A body carried in an envelope is an arbitrary JSON value.  The engine never
looks inside bodies except to type-check them during schema validation, so
arrays are modelled by their length and objects by a single constructor. -/

/-- A JS value as far as the protocol engine observes it. -/
inductive JsVal where
  | null
  | undef
  | bool (b : Bool)
  | num (n : Int)
  | str (s : String)
  | arr (length : Nat)
  | obj
  deriving DecidableEq, Repr

/-! ## ToolSocketMessage.js : the envelope

Field types are specialised to what the engine produces and consumes:
`o`/`n`/`m`/`r` are strings, `b` is an arbitrary JS value, `i`/`s` are
strings or null, `f` is a number or null (`fromString` normalises absent
fields to null). -/

/-- The message envelope with its compact wire field names. -/
structure ToolSocketMessage where
  o : String
  n : String
  m : String
  r : String
  b : JsVal
  i : Option String
  s : Option String
  f : Option Int
  deriving DecidableEq, Repr

/-- The envelope viewed as a JS object, as schema validation sees it: all
eight keys are present (the constructor assigns each one), absent optional
values having been normalised to null by `fromString`. -/
def ToolSocketMessage.toObject (msg : ToolSocketMessage) : List (String × JsVal) :=
  [ ("o", .str msg.o), ("n", .str msg.n), ("m", .str msg.m), ("r", .str msg.r)
  , ("b", msg.b)
  , ("i", msg.i.elim .null .str)
  , ("s", msg.s.elim .null .str)
  , ("f", msg.f.elim .null .num) ]

/-- JS truthiness of the envelope's id (`message.id ? … : …`): present and
non-empty. -/
def ToolSocketMessage.idTruthy (msg : ToolSocketMessage) : Bool :=
  match msg.i with
  | some s => s ≠ ""
  | none => false

/-! ## constants.js -/

def MAX_MESSAGE_SIZE : Nat := 300 * 1024 * 1024

def VALID_METHODS : List String :=
  ["action", "beat", "delete", "get", "io", "keys", "message", "new", "patch",
   "ping", "post", "pub", "put", "res", "sub", "unsub"]

/-! ## Schema.js : the validator engine

The source's validator classes become a two-layer inductive: leaf validators
and a group validator over leaves (the schemas in `schemas.js` never nest
groups).  The `pattern` option holds a character predicate, since every
regex in `schemas.js` has the shape `^[class]*$` ("every character belongs
to the class"). -/

/-- Options common to every `SchemaValidator` (`required`, `expected`,
`enum`). -/
structure ValidatorOpts where
  required : Bool := false
  expected : Bool := false
  enum : Option (List JsVal) := none

/-- The leaf `SchemaValidator` subclasses. -/
inductive LeafValidator where
  | string (key : String) (opts : ValidatorOpts)
      (minLength maxLength : Option Nat) (pattern : Option (Char → Bool))
  | number (key : String) (opts : ValidatorOpts) (minValue maxValue : Option Int)
  | boolean (key : String) (opts : ValidatorOpts)
  | nullv (key : String) (opts : ValidatorOpts)
  | undefinedv (key : String) (opts : ValidatorOpts)
  | array (key : String) (opts : ValidatorOpts) (minLength maxLength : Option Nat)
  | object (key : String) (opts : ValidatorOpts)

/-- A `SchemaValidator`: a leaf or a `GroupValidator` over leaves. -/
inductive SchemaValidator where
  | leaf (v : LeafValidator)
  | group (key : String) (opts : ValidatorOpts) (validators : List LeafValidator)

def LeafValidator.key : LeafValidator → String
  | .string k _ _ _ _ => k
  | .number k _ _ _ => k
  | .boolean k _ => k
  | .nullv k _ => k
  | .undefinedv k _ => k
  | .array k _ _ _ => k
  | .object k _ => k

def LeafValidator.opts : LeafValidator → ValidatorOpts
  | .string _ o _ _ _ => o
  | .number _ o _ _ => o
  | .boolean _ o => o
  | .nullv _ o => o
  | .undefinedv _ o => o
  | .array _ o _ _ => o
  | .object _ o => o

def SchemaValidator.key : SchemaValidator → String
  | .leaf v => v.key
  | .group k _ _ => k

def SchemaValidator.opts : SchemaValidator → ValidatorOpts
  | .leaf v => v.opts
  | .group _ o _ => o

/-- `key in object` for a JS object modelled as an association list. -/
def keyIn (object : List (String × JsVal)) (key : String) : Bool :=
  object.any (·.1 = key)

/-- `object[key]`: the stored value, or `undefined` when the key is absent. -/
def keyGet (object : List (String × JsVal)) (key : String) : JsVal :=
  ((object.find? (·.1 = key)).map (·.2)).getD JsVal.undef

/-- `SchemaValidator.prototype.validate`: the `required` presence check and
the `enum` membership check shared by every validator. -/
def baseValidate (key : String) (opts : ValidatorOpts) (object : List (String × JsVal)) : Bool :=
  (if opts.required then keyIn object key else true) &&
    (match opts.enum with
     | some vs => if keyIn object key then vs.contains (keyGet object key) else true
     | none => true)

/-- A leaf validator's `validate`: base checks, trivial pass when the key is
absent, then the type- and constraint-specific checks. -/
def LeafValidator.validate (v : LeafValidator) (object : List (String × JsVal)) : Bool :=
  baseValidate v.key v.opts object &&
    (if keyIn object v.key then
      match v, keyGet object v.key with
      | .string _ _ minL maxL pat, .str s =>
          (match minL with | some l => decide (l ≤ s.length) | none => true) &&
          (match maxL with | some l => decide (s.length ≤ l) | none => true) &&
          (match pat with | some p => s.toList.all p | none => true)
      | .string _ _ _ _ _, _ => false
      | .number _ _ minV maxV, .num x =>
          (match minV with | some l => decide (l ≤ x) | none => true) &&
          (match maxV with | some l => decide (x ≤ l) | none => true)
      | .number _ _ _ _, _ => false
      | .boolean _ _, .bool _ => true
      | .boolean _ _, _ => false
      | .nullv _ _, .null => true
      | .nullv _ _, _ => false
      | .undefinedv _ _, .undef => true
      | .undefinedv _ _, _ => false
      | .array _ _ minL maxL, .arr len =>
          (match minL with | some l => decide (l ≤ len) | none => true) &&
          (match maxL with | some l => decide (len ≤ l) | none => true)
      | .array _ _ _ _, _ => false
      -- `typeof value === 'object' && !Array.isArray(value)`: note that
      -- `typeof null === 'object'` in JS, so null passes the object check.
      | .object _ _, .obj => true
      | .object _ _, .null => true
      | .object _ _, _ => false
     else true)

/-- `GroupValidator.prototype.validate` / the dispatch over validator kinds. -/
def SchemaValidator.validate (v : SchemaValidator) (object : List (String × JsVal)) : Bool :=
  match v with
  | .leaf l => l.validate object
  | .group key opts vs =>
      baseValidate key opts object &&
        (if keyIn object key then vs.any (·.validate object) else true)

/-- `Schema.prototype.validate`: every validator in order must pass (the
source short-circuits only to record diagnostics, which we do not model). -/
def schemaValidate (validators : List SchemaValidator) (object : List (String × JsVal)) : Bool :=
  validators.all (·.validate object)

/-- `Schema.prototype.expectedKeys`. -/
def expectedKeys (validators : List SchemaValidator) : List String :=
  (validators.filter (·.opts.expected)).map (·.key)

/-! ## schemas.js : the concrete schemas -/

/-- `^[A-Za-z0-9_]*$` as a character-class predicate. -/
def wordChar (c : Char) : Bool := c.isAlpha || c.isDigit || c = '_'

/-- `^[A-Za-z0-9_/?:&+.%=-]*$` as a character-class predicate. -/
def routeChar (c : Char) : Bool :=
  c.isAlpha || c.isDigit ||
    c = '_' || c = '/' || c = '?' || c = ':' || c = '&' || c = '+' ||
    c = '.' || c = '%' || c = '=' || c = '-'

/-- `MESSAGE_BUNDLE_SCHEMA` from schemas.js, validator for validator. -/
def MESSAGE_BUNDLE_SCHEMA : List SchemaValidator :=
  [ .group "i"
      { }
      [ .string "i" { } (some 1) (some 22) (some wordChar)
      , .nullv "i" { }
      , .undefinedv "i" { } ]
  , .leaf (.string "o"
      { required := true
        enum := some [.str "server", .str "client", .str "web", .str "edge", .str "proxy"] }
      none none none)
  , .leaf (.string "n" { required := true } (some 1) (some 25) (some wordChar))
  , .leaf (.string "m" { required := true, enum := some (VALID_METHODS.map .str) } none none none)
  , .leaf (.string "r" { required := true } (some 0) (some 2000) (some routeChar))
  , .group "b"
      { required := true }
      [ .boolean "b" { }
      , .array "b" { } (some 0) (some MAX_MESSAGE_SIZE)
      , .number "b" { } none none
      , .string "b" { } (some 0) (some MAX_MESSAGE_SIZE) none
      , .object "b" { } ]
  , .group "s"
      { }
      [ .string "s" { } (some 0) (some 45) (some wordChar)
      , .nullv "s" { }
      , .undefinedv "s" { } ]
  , .group "f"
      { }
      [ .number "f" { } (some 1) (some 99)
      , .nullv "f" { }
      , .undefinedv "f" { } ] ]

/-- `MESSAGE_BUNDLE_SCHEMA.validate(message)` as `routeMessage` invokes it. -/
def validateMessage (msg : ToolSocketMessage) : Bool :=
  schemaValidate MESSAGE_BUNDLE_SCHEMA msg.toObject

/-! ## MessageBundle.js : envelope plus binary payload(s) -/

/-- The payload slot of a bundle: absent, a single byte string, or an ordered
list of frames. -/
inductive BinData where
  | nothing
  | single (bytes : List Nat)
  | multi (frames : List (List Nat))
  deriving DecidableEq, Repr

/-- An envelope together with optional binary data. -/
structure MessageBundle where
  message : ToolSocketMessage
  binaryData : BinData
  deriving DecidableEq, Repr

/-- `MessageBundle.prototype.toBinary`, over an abstract JSON/UTF-8 message
encoder `enc` (the host's `TextEncoder`/`JSON.stringify`): length prefix,
encoded envelope, then the single payload verbatim.  Throws on a list
payload. -/
def MessageBundle.toBinary (enc : ToolSocketMessage → List Nat)
    (bundle : MessageBundle) : Except String (List Nat) :=
  match bundle.binaryData with
  | .multi _ => .error "Cannot convert array-based binary data to single binary."
  | bin =>
      let messageBuffer := enc bundle.message
      let messageLengthBuffer := intToByte messageBuffer.length
      let binaryDataBuffer := match bin with | .single b => b | _ => []
      .ok (messageLengthBuffer ++ messageBuffer ++ binaryDataBuffer)

/-- `MessageBundle.fromBinary`, over an abstract JSON/UTF-8 message decoder
`dec` (the host's `TextDecoder`/`JSON.parse` plus
`ToolSocketMessage.fromString`, which throws — hence `Option`).  Reads the
4-byte length prefix, decodes that many bytes as the envelope, and keeps the
rest as the single payload. -/
def MessageBundle.fromBinary (dec : List Nat → Option ToolSocketMessage)
    (binary : List Nat) : Option MessageBundle :=
  let bufferLength := (byteToInt (binary.take 4)).toNat
  match dec ((binary.drop 4).take bufferLength) with
  | none => none
  | some message => some ⟨message, .single (binary.drop (bufferLength + 4))⟩

/-! ## BinaryBuffer.js : the reassembly buffer -/

/-- Reassembly state for one multi-frame transfer.  `length` is the target
frame count announced by the control envelope (a raw JS number, hence
`Int`). -/
structure BinaryBuffer where
  mainMessage : Option ToolSocketMessage
  messageBuffer : List (List Nat)
  length : Int
  deriving DecidableEq, Repr

/-- `BinaryBuffer.prototype.isFull`: `messageBuffer.length >= length`. -/
def BinaryBuffer.isFull (buf : BinaryBuffer) : Bool :=
  buf.length ≤ (buf.messageBuffer.length : Int)

/-- `BinaryBuffer.prototype.push`: throws when already full (leaving the
buffer untouched), otherwise appends the frame.  The returned pair is
(thrown error or unit, buffer after the call). -/
def BinaryBuffer.push (buf : BinaryBuffer) (message : List Nat) :
    Except String Unit × BinaryBuffer :=
  if buf.isFull then
    (.error "Cannot append more data to BinaryBuffer, length exceeded.", buf)
  else
    (.ok (), { buf with messageBuffer := buf.messageBuffer ++ [message] })

/-- `MessageBundle.fromBinaryBuffer`: throws (`none`) unless the buffer is
full; otherwise the bundle's payload is the ordered list of accumulated
frames and its envelope is the stored control envelope.  (The source would
crash later on a full buffer whose `mainMessage` was never set; that state is
unreachable from `routeMessage`, which stores the envelope immediately after
constructing the buffer, and is mapped to `none` here.) -/
def MessageBundle.fromBinaryBuffer (buf : BinaryBuffer) : Option MessageBundle :=
  if buf.isFull then
    buf.mainMessage.map fun message => ⟨message, .multi buf.messageBuffer⟩
  else none

/-! ## ToolSocket.js : connection-engine state

The engine is event-driven and single-threaded; its mutable fields become a
state record threaded through the operations.  Transport sends and triggered
events are recorded in transcripts.  `generateUniqueId` is random in the
source; it is modelled by a deterministic counter-derived fresh id. -/

/-- One transport-level `socket.send` call. -/
inductive WireFrame where
  | text (message : ToolSocketMessage)
  | binFrame (bytes : List Nat)
  | binBundle (message : ToolSocketMessage) (payload : List Nat)
  deriving DecidableEq, Repr

/-- An internal event surfaced through `triggerEvent` (listener side effects
of the built-in routes are modelled directly; user listeners are outside the
engine). -/
inductive TSEvent where
  | droppedMessage
  | methodDispatch (method : String)
  | requestParallel (body : JsVal)
  | confirmParallel (body : JsVal)
  | network (newNetwork oldNetwork : String)
  | ioEvent (route : String) (body : JsVal)
  | responseDelivered (id : String)
  | openEvent
  | connectEvent
  | connectedEvent
  | statusEvent
  deriving DecidableEq, Repr

/-- A queued `{messageBundle, callback}` entry; callbacks are modelled by
their presence. -/
structure QueuedMessage where
  messageBundle : MessageBundle
  hasCallback : Bool
  deriving DecidableEq, Repr

/-- The mutable fields of a `ToolSocket` instance, plus transcripts. -/
structure TSState where
  connected : Bool
  networkId : String
  origin : String
  binaryBuffer : Option BinaryBuffer
  queuedMessages : List QueuedMessage
  responseCallbacks : List String
  idCounter : Nat
  wireSent : List WireFrame
  sentBundles : List MessageBundle
  events : List TSEvent
  deriving DecidableEq, Repr

/-- A deterministic stand-in for `generateUniqueId(8)`. -/
def freshId (counter : Nat) : String := "id" ++ Nat.repr counter

/-- The envelope/bundle actually transmitted for one send-path call when the
socket is open: the callback (when present) assigns a fresh correlation id,
and a list payload sets the envelope's frame count.  Returns the bundle as
mutated by `send` together with the next id counter. -/
def sendEffect (counter : Nat) (qm : QueuedMessage) : MessageBundle × Nat :=
  let msg1 :=
    if qm.hasCallback then { qm.messageBundle.message with i := some (freshId counter) }
    else qm.messageBundle.message
  let counter1 := if qm.hasCallback then counter + 1 else counter
  let msg2 :=
    match qm.messageBundle.binaryData with
    | .multi frames => { msg1 with f := some (frames.length : Int) }
    | _ => msg1
  (⟨msg2, qm.messageBundle.binaryData⟩, counter1)

/-- `ToolSocket.prototype.send`: queue while not open; otherwise register the
callback under a fresh id and emit the transport frames for the payload
shape (`rawSend` transcripts as `wireSent`, the final `send` event as
`sentBundles`). -/
def sendTS (st : TSState) (qm : QueuedMessage) : TSState :=
  if !st.connected then
    { st with queuedMessages := st.queuedMessages ++ [qm] }
  else
    let (bundle, counter1) := sendEffect st.idCounter qm
    let callbacks1 :=
      if qm.hasCallback then st.responseCallbacks ++ [freshId st.idCounter]
      else st.responseCallbacks
    let frames :=
      match bundle.binaryData with
      | .multi fs => WireFrame.text bundle.message :: fs.map WireFrame.binFrame
      | .single b => [WireFrame.binBundle bundle.message b]
      | .nothing => [WireFrame.text bundle.message]
    { st with
      idCounter := counter1
      responseCallbacks := callbacks1
      wireSent := st.wireSent ++ frames
      sentBundles := st.sentBundles ++ [bundle] }

/-- `ToolSocket.prototype.sendQueuedMessages`: re-send every queued entry,
then clear the queue. -/
def sendQueuedMessages (st : TSState) : TSState :=
  let st1 := st.queuedMessages.foldl sendTS st
  { st1 with queuedMessages := [] }

/-- The `open` transport event handler: surface the open events, then flush
the queue (the socket is open from this point on). -/
def handleOpen (st : TSState) : TSState :=
  sendQueuedMessages
    { st with
      connected := true
      events := st.events ++ [.openEvent, .connectEvent, .connectedEvent, .statusEvent] }

/-! ## ToolSocketResponse.js : the one-shot response helper -/

/-- A JS exception escaping the engine. -/
inductive JsError where
  | nullResponseCall
  | bufferOverflow
  deriving DecidableEq, Repr

/-- A `ToolSocketResponse` bound to one received envelope. -/
structure ToolSocketResponse where
  originalMessage : ToolSocketMessage
  sent : Bool
  deriving DecidableEq, Repr

/-- `ToolSocketResponse.prototype.send`: a no-op (plus a console diagnostic)
when already sent; otherwise mark as sent, default a null/undefined body to
204, wrap in a `res` envelope reusing the original network, route and id,
and hand it to `ToolSocket.prototype.send` with no callback. -/
def responseSend (ts : TSState) (resp : ToolSocketResponse) (body : JsVal)
    (binaryData : BinData) : TSState × ToolSocketResponse :=
  if resp.sent then
    (ts, resp)
  else
    let body1 := match body with | .undef => .num 204 | .null => .num 204 | b => b
    let message : ToolSocketMessage :=
      ⟨ts.origin, resp.originalMessage.n, "res", resp.originalMessage.r, body1,
       resp.originalMessage.i, none, none⟩
    (sendTS ts ⟨⟨message, binaryData⟩, false⟩, { resp with sent := true })

/-! ## ToolSocket.js : the receive path

`routeMessage` takes the transport payload.  The host JSON parse of a text
frame is abstracted: a text input carries the parse outcome (`none` for a
throw) together with the raw frame length that `message.length` would
report; a binary input carries the raw bytes and is decoded through
`MessageBundle.fromBinary` with the abstract envelope decoder `dec`. -/

/-- A transport `message` event payload. -/
inductive RMInput where
  | text (parsed : Option ToolSocketMessage) (length : Nat)
  | binary (bytes : List Nat)

/-- Fire a `droppedMessage` event. -/
def fireDropped (st : TSState) : TSState :=
  { st with events := st.events ++ [.droppedMessage] }

/-- The built-in `ping` listener from `configureDefaultRoutes`: reply
`"pong"` through the response helper (throwing when the helper is null,
i.e. the envelope carried no id), then adopt the sender's network id when it
differs from both the reserved `toolbox` network and the current one. -/
def pingBuiltin (st : TSState) (bundle : MessageBundle) (hasResponse : Bool) :
    Except JsError TSState :=
  if !hasResponse then
    .error .nullResponseCall
  else
    let resp : ToolSocketResponse := ⟨bundle.message, false⟩
    let st1 := (responseSend st resp (.str "pong") .nothing).1
    if bundle.message.n ≠ "toolbox" && bundle.message.n ≠ st1.networkId then
      .ok { st1 with
              events := st1.events ++ [.network bundle.message.n st1.networkId]
              networkId := bundle.message.n }
    else
      .ok st1

/-- The built-in `meta` listener: surface `requestParallel` /
`confirmParallel` events carrying the body; other routes only warn. -/
def metaBuiltin (st : TSState) (bundle : MessageBundle) : TSState :=
  if bundle.message.r = "requestParallel" then
    { st with events := st.events ++ [.requestParallel bundle.message.b] }
  else if bundle.message.r = "confirmParallel" then
    { st with events := st.events ++ [.confirmParallel bundle.message.b] }
  else st

/-- The built-in `io` listener: re-trigger under the envelope's route. -/
def ioBuiltin (st : TSState) (bundle : MessageBundle) : TSState :=
  { st with events := st.events ++ [.ioEvent bundle.message.r bundle.message.b] }

/-- The built-in `res` listener: deliver to and remove the pending
correlation callback, when one is registered under the envelope's id. -/
def resBuiltin (st : TSState) (bundle : MessageBundle) : TSState :=
  match bundle.message.i with
  | some id =>
      if id ≠ "" && st.responseCallbacks.contains id then
        { st with
            events := st.events ++ [.responseDelivered id]
            responseCallbacks := st.responseCallbacks.erase id }
      else st
  | none => st

/-- Method dispatch: record the `triggerEvent(method, …)` and run the
built-in listener registered for that method, if any. -/
def dispatchMethod (st : TSState) (bundle : MessageBundle) (hasResponse : Bool) :
    Except JsError TSState :=
  let st1 := { st with events := st.events ++ [.methodDispatch bundle.message.m] }
  if bundle.message.m = "ping" then pingBuiltin st1 bundle hasResponse
  else if bundle.message.m = "meta" then .ok (metaBuiltin st1 bundle)
  else if bundle.message.m = "io" then .ok (ioBuiltin st1 bundle)
  else if bundle.message.m = "res" then .ok (resBuiltin st1 bundle)
  else .ok st1

/-- The tail of `routeMessage` after a bundle has been produced: schema
validation, the size ceiling, then dispatch (constructing a response helper
only for a truthy id). -/
def processBundle (st : TSState) (bundle : MessageBundle) (messageLength : Nat) :
    Except JsError TSState :=
  if !validateMessage bundle.message then
    .ok (fireDropped st)
  else if MAX_MESSAGE_SIZE < messageLength then
    .ok (fireDropped st)
  else if VALID_METHODS.contains bundle.message.m then
    dispatchMethod st bundle bundle.message.idTruthy
  else
    .ok st

/-- `ToolSocket.prototype.routeMessage`.  A text frame that parses with a
non-null frame count only installs a fresh reassembly buffer.  A binary frame
is pushed into a pending buffer (the push throws past `routeMessage` when the
buffer was already full) or decoded as a single self-contained binary
message.  Parse failures drop the message. -/
def routeMessage (dec : List Nat → Option ToolSocketMessage) (st : TSState)
    (input : RMInput) : Except JsError TSState :=
  match input with
  | .text parsed length =>
      match parsed with
      | none => .ok (fireDropped st)
      | some message =>
          match message.f with
          | some frameCount =>
              .ok { st with binaryBuffer := some ⟨some message, [], frameCount⟩ }
          | none => processBundle st ⟨message, .nothing⟩ length
  | .binary bytes =>
      match st.binaryBuffer with
      | some buf =>
          match buf.push bytes with
          | (.error _, _) => .error .bufferOverflow
          | (.ok _, buf1) =>
              if !buf1.isFull then
                .ok { st with binaryBuffer := some buf1 }
              else
                match MessageBundle.fromBinaryBuffer buf1 with
                | none => .ok (fireDropped { st with binaryBuffer := some buf1 })
                | some bundle =>
                    processBundle { st with binaryBuffer := none } bundle bytes.length
      | none =>
          match MessageBundle.fromBinary dec bytes with
          | none => .ok (fireDropped st)
          | some bundle =>
              processBundle st bundle bytes.length

/-! ## Schema.js : parseRoute

Route strings are handled character-wise (`List Char`); `splitOnChar` is JS
`String.prototype.split` with a single-character separator. -/

/-- JS `s.split(sep)` for a one-character separator; never returns an empty
list (`''.split(c)` is `['']`). -/
def splitOnChar (sep : Char) : List Char → List (List Char)
  | [] => [[]]
  | c :: rest =>
      match splitOnChar sep rest with
      | [] => [[]]
      | g :: gs => if c = sep then [] :: g :: gs else (c :: g) :: gs

/-- The result object of `parseRoute` before validation.  The extracted
expected-key assignments live in `pairs`; `type` is present only when it was
assigned. -/
structure ParsedRoute where
  pairs : List (List Char × List Char)
  route : List Char
  type : Option (List Char)
  query : List Char
  deriving DecidableEq, Repr

/-- JS object property assignment on an association-list object: overwrite in
place or append. -/
def objSet (object : List (List Char × List Char)) (key value : List Char) :
    List (List Char × List Char) :=
  match object with
  | [] => [(key, value)]
  | (k, v) :: rest => if k = key then (key, value) :: rest else (k, v) :: objSet rest key value

/-- The `for` loop of `parseRoute` over the path segments: an expected key
consumes itself and the following slot (recording the pair only when the
following segment is truthy, i.e. non-empty), empty segments are skipped, and
every other segment is appended to the residual route with a leading `/`. -/
def walkSegments (exp : List (List Char)) :
    List (List Char) → List (List Char × List Char) → List Char →
      List (List Char × List Char) × List Char
  | [], pairs, route => (pairs, route)
  | [seg], pairs, route =>
      if exp.contains seg then (pairs, route)
      else if seg = [] then (pairs, route)
      else (pairs, route ++ '/' :: seg)
  | seg :: next :: rest, pairs, route =>
      if exp.contains seg then
        walkSegments exp rest (if next ≠ [] then objSet pairs seg next else pairs) route
      else if seg = [] then
        walkSegments exp (next :: rest) pairs route
      else
        walkSegments exp (next :: rest) pairs (route ++ '/' :: seg)

/-- `Schema.prototype.parseRoute` up to (but not including) the final
validation: query extraction, filetype extraction from the last path
segment, and the segment walk. -/
def parseRouteConstruct (validators : List SchemaValidator) (route : String) :
    ParsedRoute :=
  let chars := route.toList
  let query := if chars.contains '?' then (chars.dropWhile (· ≠ '?')).drop 1 else []
  let pathname := (splitOnChar '?' chars).headD []
  let pathSegments := splitOnChar '/' pathname
  let lastPathSegment := pathSegments.getLastD []
  let dotParts := splitOnChar '.' lastPathSegment
  let type := if 1 < dotParts.length then some (dotParts.getLastD []) else none
  let exp := (expectedKeys validators).map String.toList
  let (pairs, residual) := walkSegments exp pathSegments [] []
  ⟨pairs, residual, type, query⟩

/-- The parsed-route object as `Schema.prototype.validate` sees it (the
`type` key exists only when assigned). -/
def ParsedRoute.toObject (pr : ParsedRoute) : List (String × JsVal) :=
  pr.pairs.map (fun kv => (String.mk kv.1, JsVal.str (String.mk kv.2)))
    ++ [("route", .str (String.mk pr.route)), ("query", .str (String.mk pr.query))]
    ++ (match pr.type with | some t => [("type", JsVal.str (String.mk t))] | none => [])

/-- `Schema.prototype.parseRoute`: construct, then validate unless asked to
skip; `none` is the JS `null` on validation failure. -/
def parseRoute (validators : List SchemaValidator) (route : String)
    (skipValidation : Bool) : Option ParsedRoute :=
  let pr := parseRouteConstruct validators route
  if skipValidation || schemaValidate validators pr.toObject then some pr else none

/-! ## Specification renderings for route parsing

`specWalk` restates the walk the way the specification describes it (amended
with the non-empty-value condition the code enforces); `claimWalk` is the
walk exactly as the specification sentence reads, recording a pair for an
expected key whenever a following segment exists. -/

/-- The segment walk as the (amended) specification describes it, as a plain
recursion: an expected key consumes two segments and records the pair when
the value is non-empty; empty segments vanish; other segments join the
residual route after a `/`. -/
def specWalk (exp : List (List Char)) :
    List (List Char) → List (List Char × List Char) × List Char
  | [] => ([], [])
  | [seg] =>
      if exp.contains seg then ([], [])
      else if seg = [] then ([], [])
      else ([], '/' :: seg)
  | seg :: next :: rest =>
      if exp.contains seg then
        let pr := specWalk exp rest
        ((if next ≠ [] then [(seg, next)] else []) ++ pr.1, pr.2)
      else if seg = [] then specWalk exp (next :: rest)
      else
        let pr := specWalk exp (next :: rest)
        (pr.1, '/' :: seg ++ pr.2)

/-- The walk exactly as the claim reads: an expected key always consumes
itself and the following segment as a key→value pair. -/
def claimWalk (exp : List (List Char)) :
    List (List Char) → List (List Char × List Char) × List Char
  | [] => ([], [])
  | [seg] =>
      if exp.contains seg then ([], [])
      else if seg = [] then ([], [])
      else ([], '/' :: seg)
  | seg :: next :: rest =>
      if exp.contains seg then
        let pr := claimWalk exp rest
        ((seg, next) :: pr.1, pr.2)
      else if seg = [] then claimWalk exp (next :: rest)
      else
        let pr := claimWalk exp (next :: rest)
        (pr.1, '/' :: seg ++ pr.2)

/-- The loop of `parseRoute` is the specification's walk, threaded through
the accumulated object and residual route. -/
theorem walkSegments_eq_specWalk (exp : List (List Char)) :
    ∀ (segs : List (List Char)) (pairs : List (List Char × List Char)) (route : List Char),
      walkSegments exp segs pairs route =
        ((specWalk exp segs).1.foldl (fun o kv => objSet o kv.1 kv.2) pairs,
         route ++ (specWalk exp segs).2)
  | [], pairs, route => by simp [walkSegments, specWalk]
  | [seg], pairs, route => by
      simp only [walkSegments, specWalk]
      split_ifs <;> simp
  | seg :: next :: rest, pairs, route => by
      have ih1 := walkSegments_eq_specWalk exp rest
      have ih2 := walkSegments_eq_specWalk exp (next :: rest)
      rcases eq_or_ne seg [] with h2 | h2
      · subst h2
        by_cases h1 : ([] : List Char) ∈ exp
        · by_cases hn : next = [] <;> simp [walkSegments, specWalk, h1, hn, ih1]
        · simp [walkSegments, specWalk, h1, ih2]
      · by_cases h1 : seg ∈ exp
        · by_cases hn : next = [] <;> simp [walkSegments, specWalk, h1, h2, hn, ih1]
        · simp [walkSegments, specWalk, h1, h2, ih2]

/-- The substring after the last occurrence of `sep` (the specification's
"the substring after the last dot"); the whole string when `sep` does not
occur. -/
def afterLastChar (sep : Char) : List Char → List Char
  | [] => []
  | c :: rest =>
      if sep ∈ rest then afterLastChar sep rest
      else if c = sep then rest
      else c :: rest

theorem splitOnChar_ne_nil (sep : Char) : ∀ s : List Char, splitOnChar sep s ≠ []
  | [] => by simp [splitOnChar]
  | c :: rest => by
      have ih := splitOnChar_ne_nil sep rest
      rcases h : splitOnChar sep rest with _ | ⟨g, gs⟩
      · exact absurd h ih
      · simp [splitOnChar, h]
        split <;> simp

/-- `s.split(sep)` has more than one part exactly when `sep` occurs in `s`. -/
theorem splitOnChar_length_iff (sep : Char) :
    ∀ s : List Char, 1 < (splitOnChar sep s).length ↔ sep ∈ s
  | [] => by simp [splitOnChar]
  | c :: rest => by
      have ih := splitOnChar_length_iff sep rest
      rcases h : splitOnChar sep rest with _ | ⟨g, gs⟩
      · exact absurd h (splitOnChar_ne_nil sep rest)
      · rw [h] at ih
        by_cases hc : c = sep
        · subst hc
          simp [splitOnChar, h]
        · have hcc : ¬ sep = c := fun hs => hc hs.symm
          simp only [splitOnChar, h, if_neg hc, List.length_cons, List.mem_cons, hcc,
            false_or]
          simpa using ih

/-- The last part of `s.split(sep)` is the substring after the last `sep`
(the whole string when `sep` does not occur). -/
theorem splitOnChar_getLast (sep : Char) :
    ∀ s : List Char,
      (splitOnChar sep s).getLast? =
        some (if sep ∈ s then afterLastChar sep s else s)
  | [] => by simp [splitOnChar, afterLastChar]
  | c :: rest => by
      have ih := splitOnChar_getLast sep rest
      have hlen := splitOnChar_length_iff sep rest
      rcases h : splitOnChar sep rest with _ | ⟨g, gs⟩
      · exact absurd h (splitOnChar_ne_nil sep rest)
      · rw [h] at ih hlen
        by_cases hc : c = sep
        · subst hc
          have hsplit : splitOnChar c (c :: rest) = [] :: g :: gs := by
            simp [splitOnChar, h]
          rw [hsplit, List.getLast?_cons_cons, ih]
          by_cases hm : c ∈ rest
          · simp [afterLastChar, hm]
          · simp [afterLastChar, hm]
        · have hcc : ¬ sep = c := fun hs => hc hs.symm
          simp only [splitOnChar, h, if_neg hc]
          rcases gs with _ | ⟨g2, gs2⟩
          · have hm : ¬ sep ∈ rest := by
              intro hmem
              have := hlen.mpr hmem
              simp at this
            have hg : rest = g := by
              have := ih
              simp [hm] at this
              exact this.symm
            subst hg
            simp [List.mem_cons, hcc, hm, afterLastChar]
          · have hm : sep ∈ rest := by
              apply hlen.mp
              simp
            rw [List.getLast?_cons_cons] at ih ⊢
            rw [ih]
            simp [List.mem_cons, hcc, hm, afterLastChar]

/-! ## Flush-order characterisation for the outbound queue -/

/-- The `send`-event bundles produced by pushing a list of queued entries
through the send path of an open socket, in order, threading the fresh-id
counter. -/
def flushBundles (counter : Nat) : List QueuedMessage → List MessageBundle
  | [] => []
  | qm :: rest =>
      let e := sendEffect counter qm
      e.1 :: flushBundles e.2 rest

/-- While the socket is not open, every send only appends its entry to the
queue. -/
theorem foldl_sendTS_disconnected (qms : List QueuedMessage) :
    ∀ st : TSState, st.connected = false →
      qms.foldl sendTS st = { st with queuedMessages := st.queuedMessages ++ qms } := by
  induction qms with
  | nil => intro st h; simp
  | cons qm rest ih =>
      intro st h
      have hstep : sendTS st qm = { st with queuedMessages := st.queuedMessages ++ [qm] } := by
        simp [sendTS, h]
      rw [List.foldl_cons, hstep, ih _ (by simp [h])]
      simp

/-- While the socket is open, sends leave the queue alone and append their
transmitted bundles in order. -/
theorem foldl_sendTS_connected (qms : List QueuedMessage) :
    ∀ st : TSState, st.connected = true →
      (qms.foldl sendTS st).sentBundles = st.sentBundles ++ flushBundles st.idCounter qms ∧
      (qms.foldl sendTS st).queuedMessages = st.queuedMessages ∧
      (qms.foldl sendTS st).connected = true := by
  induction qms with
  | nil => intro st h; simp [flushBundles, h]
  | cons qm rest ih =>
      intro st h
      have hconn : (sendTS st qm).connected = true := by
        simp [sendTS, h]
      have hsent : (sendTS st qm).sentBundles =
          st.sentBundles ++ [(sendEffect st.idCounter qm).1] := by
        simp [sendTS, h]
      have hq : (sendTS st qm).queuedMessages = st.queuedMessages := by
        simp [sendTS, h]
      have hctr : (sendTS st qm).idCounter = (sendEffect st.idCounter qm).2 := by
        simp [sendTS, h]
      obtain ⟨h1, h2, h3⟩ := ih (sendTS st qm) hconn
      rw [List.foldl_cons]
      refine ⟨?_, by rw [h2, hq], h3⟩
      rw [h1, hsent, hctr]
      simp [flushBundles]

/-! ## Claim theorems -/

/-- C4: for every unsigned integer n in [0, 2^32−1], `byteToInt (intToByte n)
= n` — decoding the 4-byte big-endian encoding of n returns n exactly. -/
theorem byteToInt_intToByte_roundtrip (n : Nat) (h : n ≤ 2 ^ 32 - 1) :
    byteToInt (intToByte n) = (n : Int) :=
  byteToInt_intToByte n (by omega)

theorem byteToInt_intToByte_roundtrip_witness :
    3000000000 ≤ 2 ^ 32 - 1 ∧ byteToInt (intToByte 3000000000) = (3000000000 : Int) :=
  ⟨by decide, byteToInt_intToByte_roundtrip 3000000000 (by decide)⟩

/-- C3: for every envelope and every single (non-list) binary payload,
`MessageBundle.fromBinary` applied to `toBinary`'s output yields a bundle
with an equal envelope and identical payload bytes, for any envelope text
codec `enc`/`dec` that round-trips this envelope and any encoded-envelope
length below 2^32. -/
theorem messageBundle_binary_roundtrip (enc : ToolSocketMessage → List Nat)
    (dec : List Nat → Option ToolSocketMessage) (msg : ToolSocketMessage)
    (payload : List Nat) (hdec : dec (enc msg) = some msg)
    (hlen : (enc msg).length < 2 ^ 32) :
    MessageBundle.toBinary enc ⟨msg, .single payload⟩ =
      .ok (intToByte (enc msg).length ++ enc msg ++ payload) ∧
    MessageBundle.fromBinary dec (intToByte (enc msg).length ++ enc msg ++ payload) =
      some ⟨msg, .single payload⟩ := by
  constructor
  · rfl
  · have h4 : (intToByte (enc msg).length).length = 4 := intToByte_length _
    have htake4 : (intToByte (enc msg).length ++ enc msg ++ payload).take 4 =
        intToByte (enc msg).length := by
      rw [List.append_assoc]
      exact List.take_left' h4
    have hlenInt : (byteToInt ((intToByte (enc msg).length ++ enc msg ++ payload).take 4)).toNat =
        (enc msg).length := by
      rw [htake4, byteToInt_intToByte _ hlen]
      exact Int.toNat_natCast _
    have hdrop4 : (intToByte (enc msg).length ++ enc msg ++ payload).drop 4 =
        enc msg ++ payload := by
      rw [List.append_assoc]
      exact List.drop_left' h4
    have htakeL : ((intToByte (enc msg).length ++ enc msg ++ payload).drop 4).take
        (enc msg).length = enc msg := by
      rw [hdrop4]
      exact List.take_left' rfl
    have hdropL : (intToByte (enc msg).length ++ enc msg ++ payload).drop
        ((enc msg).length + 4) = payload := by
      apply List.drop_left'
      simp [h4]
      omega
    simp only [MessageBundle.fromBinary, hlenInt, htakeL, hdec, hdropL]

theorem messageBundle_binary_roundtrip_witness :
    (fun _bytes : List Nat => some (⟨"web", "io", "get", "/t", .str "x", none, none, none⟩ :
        ToolSocketMessage)) [65] =
      some (⟨"web", "io", "get", "/t", .str "x", none, none, none⟩ : ToolSocketMessage) ∧
    ((fun _msg : ToolSocketMessage => [65]) (⟨"web", "io", "get", "/t", .str "x", none,
        none, none⟩ : ToolSocketMessage)).length < 2 ^ 32 ∧
    MessageBundle.fromBinary
        (fun _bytes => some ⟨"web", "io", "get", "/t", .str "x", none, none, none⟩)
        (intToByte 1 ++ [65] ++ [9, 8, 7]) =
      some ⟨⟨"web", "io", "get", "/t", .str "x", none, none, none⟩, .single [9, 8, 7]⟩ :=
  ⟨rfl, by decide,
    (messageBundle_binary_roundtrip (fun _ => [65])
      (fun _ => some ⟨"web", "io", "get", "/t", .str "x", none, none, none⟩)
      ⟨"web", "io", "get", "/t", .str "x", none, none, none⟩ [9, 8, 7] rfl (by decide)).2⟩

/-- C5: pushing into a `BinaryBuffer` whose received-frame count has reached
its target count raises a hard failure and leaves the buffer — stored
frames, target count, and stored control envelope — unchanged. -/
theorem binaryBuffer_push_full_error (buf : BinaryBuffer) (frame : List Nat)
    (h : buf.length ≤ (buf.messageBuffer.length : Int)) :
    buf.push frame =
      (.error "Cannot append more data to BinaryBuffer, length exceeded.", buf) := by
  have hfull : buf.isFull = true := by
    simp [BinaryBuffer.isFull, h]
  simp [BinaryBuffer.push, hfull]

theorem binaryBuffer_push_full_error_witness :
    (⟨some ⟨"web", "io", "post", "/x", .str "b", none, none, some 1⟩, [[1, 2]], 1⟩ :
        BinaryBuffer).length ≤
      (((⟨some ⟨"web", "io", "post", "/x", .str "b", none, none, some 1⟩, [[1, 2]], 1⟩ :
        BinaryBuffer)).messageBuffer.length : Int) ∧
    (⟨some ⟨"web", "io", "post", "/x", .str "b", none, none, some 1⟩, [[1, 2]], 1⟩ :
        BinaryBuffer).push [3] =
      (.error "Cannot append more data to BinaryBuffer, length exceeded.",
       ⟨some ⟨"web", "io", "post", "/x", .str "b", none, none, some 1⟩, [[1, 2]], 1⟩) :=
  ⟨by decide,
    binaryBuffer_push_full_error
      ⟨some ⟨"web", "io", "post", "/x", .str "b", none, none, some 1⟩, [[1, 2]], 1⟩ [3]
      (by decide)⟩

/-- A freshly-connected engine state used by concrete runs. -/
def baseState : TSState :=
  ⟨true, "io", "web", none, [], [], 0, [], [], []⟩

/-- C9: a text message that parses with a non-null frameCount installs a
fresh reassembly buffer sized to that frameCount (replacing any pending
buffer), stores the envelope, and returns at once — no validation, size
check, dispatch, or event; a frameCount of 0 installs an already-full
buffer. -/
theorem routeMessage_frameCount_installs_buffer (dec : List Nat → Option ToolSocketMessage)
    (st : TSState) (msg : ToolSocketMessage) (frameCount : Int) (len : Nat)
    (h : msg.f = some frameCount) :
    routeMessage dec st (.text (some msg) len) =
      .ok { st with binaryBuffer := some ⟨some msg, [], frameCount⟩ } ∧
    (frameCount = 0 → BinaryBuffer.isFull ⟨some msg, [], frameCount⟩ = true) := by
  constructor
  · simp [routeMessage, h]
  · intro hk
    simp [BinaryBuffer.isFull, hk]

theorem routeMessage_frameCount_installs_buffer_witness :
    (⟨"web", "io", "post", "/x", .str "b", none, none, some 0⟩ : ToolSocketMessage).f =
      some 0 ∧
    routeMessage (fun _ => none)
        { baseState with binaryBuffer := some ⟨none, [[1]], 5⟩ }
        (.text (some ⟨"web", "io", "post", "/x", .str "b", none, none, some 0⟩) 44) =
      .ok { baseState with
              binaryBuffer :=
                some ⟨some ⟨"web", "io", "post", "/x", .str "b", none, none, some 0⟩, [], 0⟩ } ∧
    BinaryBuffer.isFull
        ⟨some ⟨"web", "io", "post", "/x", .str "b", none, none, some 0⟩, [], 0⟩ = true := by
  have h := routeMessage_frameCount_installs_buffer (fun _ => none)
    { baseState with binaryBuffer := some ⟨none, [[1]], 5⟩ }
    ⟨"web", "io", "post", "/x", .str "b", none, none, some 0⟩ 0 44 rfl
  exact ⟨rfl, h.1, h.2 rfl⟩

/-- A well-formed `meta` control envelope, as `ToolSocketServer`'s parallel
handshake sends it (`toolSocket.meta('requestParallel', id)`). -/
def metaMsg : ToolSocketMessage :=
  ⟨"server", "toolbox", "meta", "requestParallel", .str "hsAbc123", none, none, none⟩

/-- C1 (code-bug exhibit): `meta` is missing from `VALID_METHODS`, so a
received well-formed `meta` envelope fails schema validation (whose `m`
enum is `VALID_METHODS`) and is dropped — it is never dispatched, and the
`requestParallel`/`confirmParallel` events can never fire, even though the
repository itself sends `meta` envelopes and registers a built-in `meta`
listener for exactly these routes. -/
theorem meta_method_never_dispatched :
    VALID_METHODS.contains "meta" = false ∧
    validateMessage metaMsg = false ∧
    routeMessage (fun _ => none) baseState (.text (some metaMsg) 90) =
      .ok (fireDropped baseState) ∧
    metaBuiltin baseState ⟨metaMsg, .nothing⟩ =
      { baseState with events := [.requestParallel (.str "hsAbc123")] } := by
  refine ⟨by decide, by decide, by rfl, by rfl⟩

/-- C10: a schema-valid `ping` envelope with a null id is dispatched with a
null response helper, and the built-in ping listener's unconditional
`response.send('pong')` throws out of the receive path. -/
theorem ping_without_id_throws (dec : List Nat → Option ToolSocketMessage)
    (st : TSState) (msg : ToolSocketMessage) (len : Nat)
    (hv : validateMessage msg = true) (hm : msg.m = "ping") (hi : msg.i = none)
    (hf : msg.f = none) (hlen : len ≤ MAX_MESSAGE_SIZE) :
    routeMessage dec st (.text (some msg) len) = .error .nullResponseCall := by
  have hnl : ¬ MAX_MESSAGE_SIZE < len := Nat.not_lt.mpr hlen
  have hc : VALID_METHODS.contains "ping" = true := by decide
  simp [routeMessage, hf, processBundle, hv, hnl, hm, hc, dispatchMethod, pingBuiltin,
    ToolSocketMessage.idTruthy, hi]
  decide

theorem ping_without_id_throws_witness :
    validateMessage ⟨"web", "n1", "ping", "action/ping", .str "x", none, none, none⟩ = true ∧
    routeMessage (fun _ => none) baseState
        (.text (some ⟨"web", "n1", "ping", "action/ping", .str "x", none, none, none⟩) 70) =
      .error .nullResponseCall :=
  ⟨by decide,
    ping_without_id_throws (fun _ => none) baseState
      ⟨"web", "n1", "ping", "action/ping", .str "x", none, none, none⟩ 70
      (by decide) rfl rfl rfl (by decide)⟩

/-- C6 (amended): `parseRoute` walks the path segments left to right; a
segment equal to an expected key consumes itself and the following segment,
recording the key→value pair only when the following segment is non-empty,
and advances two segments; every other non-empty segment is appended with a
leading `/` to the residual route; and a type field is produced exactly when
the final path segment contains a dot, holding the substring after the last
dot. -/
theorem parseRoute_walk_characterization (validators : List SchemaValidator)
    (route : String) :
    (parseRouteConstruct validators route).pairs =
      ((specWalk ((expectedKeys validators).map String.toList)
          (splitOnChar '/' ((splitOnChar '?' route.toList).headD []))).1).foldl
        (fun o kv => objSet o kv.1 kv.2) [] ∧
    (parseRouteConstruct validators route).route =
      (specWalk ((expectedKeys validators).map String.toList)
        (splitOnChar '/' ((splitOnChar '?' route.toList).headD []))).2 ∧
    (parseRouteConstruct validators route).type =
      (if '.' ∈ (splitOnChar '/' ((splitOnChar '?' route.toList).headD [])).getLastD []
       then some (afterLastChar '.'
         ((splitOnChar '/' ((splitOnChar '?' route.toList).headD [])).getLastD []))
       else none) := by
  have hwalk := walkSegments_eq_specWalk ((expectedKeys validators).map String.toList)
    (splitOnChar '/' ((splitOnChar '?' route.toList).headD [])) [] []
  refine ⟨?_, ?_, ?_⟩
  · show (walkSegments ((expectedKeys validators).map String.toList)
        (splitOnChar '/' ((splitOnChar '?' route.toList).headD [])) [] []).1 = _
    rw [hwalk]
  · show (walkSegments ((expectedKeys validators).map String.toList)
        (splitOnChar '/' ((splitOnChar '?' route.toList).headD [])) [] []).2 = _
    rw [hwalk]
    simp
  · show (if 1 < (splitOnChar '.'
          ((splitOnChar '/' ((splitOnChar '?' route.toList).headD [])).getLastD [])).length
        then some ((splitOnChar '.'
          ((splitOnChar '/' ((splitOnChar '?' route.toList).headD [])).getLastD [])).getLastD [])
        else none) = _
    by_cases hdot : '.' ∈ (splitOnChar '/' ((splitOnChar '?' route.toList).headD [])).getLastD []
    · have hl := (splitOnChar_length_iff '.' _).mpr hdot
      have hg := splitOnChar_getLast '.'
        ((splitOnChar '/' ((splitOnChar '?' route.toList).headD [])).getLastD [])
      rw [if_pos hl, if_pos hdot, List.getLastD_eq_getLast?, hg]
      simp only [Option.getD_some]
      rw [if_pos hdot]
    · have hl : ¬ 1 < (splitOnChar '.'
          ((splitOnChar '/' ((splitOnChar '?' route.toList).headD [])).getLastD [])).length :=
        fun h => hdot ((splitOnChar_length_iff '.' _).mp h)
      rw [if_neg hl, if_neg hdot]

/-- A minimal schema marking `n` as an expected key with no constraints. -/
def laxSchema : List SchemaValidator :=
  [.leaf (.string "n" { expected := true } none none none)]

/-- C6 counterexample: on the route `"/n//x"` the expected key `n` is
followed by an empty segment; the claim as stated records the pair
`n → ""`, but `parseRoute` records no pair at all (it still consumes both
segments). -/
theorem parseRoute_empty_value_counterexample :
    (parseRouteConstruct laxSchema "/n//x").pairs = [] ∧
    (claimWalk ["n".toList]
        (splitOnChar '/' ((splitOnChar '?' "/n//x".toList).headD []))).1 =
      [("n".toList, [])] ∧
    (parseRouteConstruct laxSchema "/n//x").pairs ≠
      ((claimWalk ["n".toList]
          (splitOnChar '/' ((splitOnChar '?' "/n//x".toList).headD []))).1).foldl
        (fun o kv => objSet o kv.1 kv.2) [] := by
  refine ⟨by decide, by decide, by decide⟩

/-- C2 (amended): the size ceiling drops oversize text messages and oversize
single self-contained binary messages; for a completed multi-frame transfer
the engine compares only the byte length of the final received frame against
the ceiling, so completion drops the message exactly by that frame's size —
the transfer's total size is never checked. -/
theorem routeMessage_size_ceiling :
    (∀ (dec : List Nat → Option ToolSocketMessage) (st : TSState)
        (msg : ToolSocketMessage) (len : Nat),
      msg.f = none → MAX_MESSAGE_SIZE < len →
        routeMessage dec st (.text (some msg) len) = .ok (fireDropped st)) ∧
    (∀ (dec : List Nat → Option ToolSocketMessage) (st : TSState) (bytes : List Nat),
      st.binaryBuffer = none → MAX_MESSAGE_SIZE < bytes.length →
        routeMessage dec st (.binary bytes) = .ok (fireDropped st)) ∧
    (∀ (dec : List Nat → Option ToolSocketMessage) (st : TSState) (buf : BinaryBuffer)
        (bytes : List Nat) (msg : ToolSocketMessage),
      st.binaryBuffer = some buf → buf.isFull = false → buf.mainMessage = some msg →
      (buf.push bytes).2.isFull = true → MAX_MESSAGE_SIZE < bytes.length →
        routeMessage dec st (.binary bytes) =
          .ok (fireDropped { st with binaryBuffer := none })) := by
  refine ⟨?_, ?_, ?_⟩
  · intro dec st msg len hf hlen
    by_cases hval : validateMessage msg <;>
      simp [routeMessage, hf, processBundle, hval, hlen]
  · intro dec st bytes hb hlen
    rcases h : MessageBundle.fromBinary dec bytes with _ | bundle
    · simp [routeMessage, hb, h]
    · by_cases hval : validateMessage bundle.message <;>
        simp [routeMessage, hb, h, processBundle, hval, hlen]
  · intro dec st buf bytes msg hb hnotfull hmain hfull hlen
    have hpush : buf.push bytes =
        (.ok (), { buf with messageBuffer := buf.messageBuffer ++ [bytes] }) := by
      simp [BinaryBuffer.push, hnotfull]
    have hfull2 : ({ buf with messageBuffer := buf.messageBuffer ++ [bytes] } :
        BinaryBuffer).isFull = true := by
      rw [hpush] at hfull
      exact hfull
    have hfull4 : (⟨some msg, buf.messageBuffer ++ [bytes], buf.length⟩ :
        BinaryBuffer).isFull = true := hfull2
    have hfbb : MessageBundle.fromBinaryBuffer
        { buf with messageBuffer := buf.messageBuffer ++ [bytes] } =
        some ⟨msg, .multi (buf.messageBuffer ++ [bytes])⟩ := by
      simp [MessageBundle.fromBinaryBuffer, hfull2, hfull4, hmain]
    by_cases hval : validateMessage msg <;>
      simp [routeMessage, hb, hpush, hfull2, hfbb, processBundle, hval, hlen]

theorem routeMessage_size_ceiling_witness :
    (⟨"web", "io", "post", "/x", .str "hello", none, none, none⟩ : ToolSocketMessage).f =
      none ∧
    MAX_MESSAGE_SIZE < 314572801 ∧
    routeMessage (fun _ => none) baseState
        (.text (some ⟨"web", "io", "post", "/x", .str "hello", none, none, none⟩)
          314572801) =
      .ok (fireDropped baseState) :=
  ⟨rfl, by decide,
    routeMessage_size_ceiling.1 (fun _ => none) baseState
      ⟨"web", "io", "post", "/x", .str "hello", none, none, none⟩ 314572801 rfl (by decide)⟩

/-- A well-formed control envelope announcing a 2-frame binary transfer. -/
def ctrlMsg : ToolSocketMessage :=
  ⟨"web", "io", "post", "/x", .str "hello", none, none, some 2⟩

/-- A binary frame as large as the entire configured size ceiling. -/
def bigFrame : List Nat := List.replicate MAX_MESSAGE_SIZE 0

/-- C2 counterexample: a completed 2-frame transfer whose total wire size
(control envelope of 80 characters plus both frames) exceeds the ceiling is
dispatched — no droppedMessage fires — because only the final frame's
length (1 byte here) is compared against the maximum. -/
theorem oversize_multiframe_dispatched :
    routeMessage (fun _ => none) baseState (.text (some ctrlMsg) 80) =
      .ok { baseState with binaryBuffer := some ⟨some ctrlMsg, [], 2⟩ } ∧
    routeMessage (fun _ => none)
        { baseState with binaryBuffer := some ⟨some ctrlMsg, [], 2⟩ }
        (.binary bigFrame) =
      .ok { baseState with binaryBuffer := some ⟨some ctrlMsg, [bigFrame], 2⟩ } ∧
    routeMessage (fun _ => none)
        { baseState with binaryBuffer := some ⟨some ctrlMsg, [bigFrame], 2⟩ }
        (.binary [7]) =
      .ok { baseState with events := [.methodDispatch "post"] } ∧
    MAX_MESSAGE_SIZE < 80 + bigFrame.length + 1 := by
  refine ⟨rfl, rfl, rfl, ?_⟩
  have hlen : bigFrame.length = MAX_MESSAGE_SIZE := by
    unfold bigFrame
    rw [List.length_replicate]
  rw [hlen]
  omega

/-- C7: every send made while the connection is not open appends its
`{bundle, callback}` entry to the outbound queue and transmits nothing; when
the transport fires `open`, the engine flushes every queued entry through the
send path in exactly the order enqueued (strict FIFO) and empties the
queue. -/
theorem queued_messages_fifo_flush (st : TSState) (entries : List QueuedMessage)
    (hdis : st.connected = false) :
    (entries.foldl sendTS st).queuedMessages = st.queuedMessages ++ entries ∧
    (entries.foldl sendTS st).wireSent = st.wireSent ∧
    (entries.foldl sendTS st).sentBundles = st.sentBundles ∧
    (handleOpen (entries.foldl sendTS st)).queuedMessages = [] ∧
    (handleOpen (entries.foldl sendTS st)).sentBundles =
      st.sentBundles ++ flushBundles st.idCounter (st.queuedMessages ++ entries) := by
  have hfold := foldl_sendTS_disconnected entries st hdis
  refine ⟨by rw [hfold], by rw [hfold], by rw [hfold], ?_, ?_⟩
  · simp [handleOpen, sendQueuedMessages]
  · rw [hfold]
    simp only [handleOpen, sendQueuedMessages]
    rw [(foldl_sendTS_connected _ _ rfl).1]

theorem queued_messages_fifo_flush_witness :
    ({ baseState with connected := false } : TSState).connected = false ∧
    ((([⟨⟨⟨"web", "io", "post", "/a", .str "one", none, none, none⟩, .nothing⟩, false⟩,
        ⟨⟨⟨"web", "io", "get", "/b", .str "two", none, none, none⟩, .nothing⟩, true⟩] :
        List QueuedMessage).foldl sendTS { baseState with connected := false }).queuedMessages =
      [⟨⟨⟨"web", "io", "post", "/a", .str "one", none, none, none⟩, .nothing⟩, false⟩,
       ⟨⟨⟨"web", "io", "get", "/b", .str "two", none, none, none⟩, .nothing⟩, true⟩]) ∧
    (handleOpen (([⟨⟨⟨"web", "io", "post", "/a", .str "one", none, none, none⟩, .nothing⟩, false⟩,
        ⟨⟨⟨"web", "io", "get", "/b", .str "two", none, none, none⟩, .nothing⟩, true⟩] :
        List QueuedMessage).foldl sendTS { baseState with connected := false })).sentBundles =
      flushBundles 0
        [⟨⟨⟨"web", "io", "post", "/a", .str "one", none, none, none⟩, .nothing⟩, false⟩,
         ⟨⟨⟨"web", "io", "get", "/b", .str "two", none, none, none⟩, .nothing⟩, true⟩] := by
  have h := queued_messages_fifo_flush { baseState with connected := false }
    [⟨⟨⟨"web", "io", "post", "/a", .str "one", none, none, none⟩, .nothing⟩, false⟩,
     ⟨⟨⟨"web", "io", "get", "/b", .str "two", none, none, none⟩, .nothing⟩, true⟩] rfl
  exact ⟨rfl, h.1, h.2.2.2.2⟩

/-- C8: the first send through a response helper marks it sent, defaults a
null/undefined body to 204, wraps it in a `res` envelope carrying the
original envelope's network, route and id, and hands it to the engine's send
path; any later send through the same helper is a no-op. -/
theorem response_send_once (ts : TSState) (resp : ToolSocketResponse) (body : JsVal)
    (binaryData : BinData) (hid : resp.originalMessage.i ≠ none)
    (hsent : resp.sent = false) :
    responseSend ts resp body binaryData =
      (sendTS ts ⟨⟨⟨ts.origin, resp.originalMessage.n, "res", resp.originalMessage.r,
          (match body with | .undef => .num 204 | .null => .num 204 | b => b),
          resp.originalMessage.i, none, none⟩, binaryData⟩, false⟩,
       { resp with sent := true }) ∧
    (∀ (ts2 : TSState) (body2 : JsVal) (bin2 : BinData),
      responseSend ts2 { resp with sent := true } body2 bin2 =
        (ts2, { resp with sent := true })) := by
  constructor
  · simp [responseSend, hsent]
  · intro ts2 body2 bin2
    simp [responseSend]

theorem response_send_once_witness :
    ((⟨⟨"web", "n1", "get", "/t", .str "q", some "abc", none, none⟩, false⟩ :
        ToolSocketResponse).originalMessage.i ≠ none) ∧
    responseSend baseState
        ⟨⟨"web", "n1", "get", "/t", .str "q", some "abc", none, none⟩, false⟩ .null .nothing =
      (sendTS baseState
        ⟨⟨⟨"web", "n1", "res", "/t", .num 204, some "abc", none, none⟩, .nothing⟩, false⟩,
       ⟨⟨"web", "n1", "get", "/t", .str "q", some "abc", none, none⟩, true⟩) ∧
    responseSend baseState
        ⟨⟨"web", "n1", "get", "/t", .str "q", some "abc", none, none⟩, true⟩
        (.str "again") .nothing =
      (baseState, ⟨⟨"web", "n1", "get", "/t", .str "q", some "abc", none, none⟩, true⟩) := by
  have h := response_send_once baseState
    ⟨⟨"web", "n1", "get", "/t", .str "q", some "abc", none, none⟩, false⟩ .null .nothing
    (by simp) rfl
  exact ⟨by simp, h.1, h.2 baseState (.str "again") .nothing⟩
